import Mathlib

/-!
Verification of the transfer-learning notebook (`notebooks/Transfer_Learning.ipynb`).

The notebook is an orchestration script: it downloads and extracts a
two-class image dataset, builds torchvision transform pipelines, wraps a
pretrained ResNet-18 whose final layer is replaced, and trains it with
skorch using three callbacks (StepLR learning-rate schedule, best-model
checkpoint, parameter freezer).  The notebook's own code is embedded
directly from the source cells; the behaviour of the third-party
callbacks and of the training loop, which is not part of this
repository, is modelled from the specification where the claims need it.
-/

namespace TransferLearning

/-! ## Dataset acquisition: `download_and_extract_data` (notebook cell 7)

The function inspects two filesystem entries,
`datasets/hymenoptera_data.zip` (the archive) and
`datasets/hymenoptera_data` (the extracted directory), performs at most
one HTTP request via `urlopen(url, timeout=15)`, and at most one
`ZipFile.extractall`.  We embed it as a function of an abstract
filesystem state and a network oracle, recording its observable
effects. -/

/-- Filesystem state restricted to the two entries the function inspects:
whether `datasets/hymenoptera_data.zip` exists and whether the extracted
directory `datasets/hymenoptera_data` exists. -/
structure FS where
  dataZip : Bool
  dataPath : Bool
deriving DecidableEq, Repr, Fintype

/-- Oracle for the single `urlopen` call: the fetch either returns the
archive bytes or raises (timeout, HTTP error, ...). -/
inductive Net
  | ok
  | failure
deriving DecidableEq, Repr, Fintype

/-- The timeout, in seconds, passed to `urlopen` in the source:
`request.urlopen(url, timeout=15)`. -/
def urlopenTimeoutSeconds : ℕ := 15

/-- Observable effects of one invocation: `requests` lists the timeout of
each HTTP request issued, in order; `extractions` counts the calls to
`ZipFile.extractall`. -/
structure EffLog where
  requests : List ℕ
  extractions : ℕ
deriving DecidableEq, Repr

/-- Result of one invocation of `download_and_extract_data`: the final
filesystem state, the effect log, and whether the call aborted with a
raised error (`err = true`) instead of printing the success message. -/
structure DlResult where
  fs : FS
  log : EffLog
  err : Bool
deriving DecidableEq, Repr

/-- Embedding of `download_and_extract_data` (cell 7):

    if not os.path.exists(data_path):
        if not os.path.exists(data_zip):
            data = request.urlopen(url, timeout=15).read()
            with open(data_zip, 'wb') as f: f.write(data)
        with ZipFile(data_zip, 'r') as zip_f: zip_f.extractall(dataset_dir)
    print("Data has been downloaded and extracted ...")

A failed `urlopen` raises before the zip file is opened for writing, so
on failure the filesystem is unchanged and the error propagates.
Extraction of the fixed archive creates the `hymenoptera_data`
directory. -/
def download_and_extract_data (net : Net) (fs : FS) : DlResult :=
  if fs.dataPath then
    { fs := fs, log := { requests := [], extractions := 0 }, err := false }
  else if fs.dataZip then
    { fs := { fs with dataPath := true },
      log := { requests := [], extractions := 1 }, err := false }
  else
    match net with
    | Net.ok =>
        { fs := { dataZip := true, dataPath := true },
          log := { requests := [urlopenTimeoutSeconds], extractions := 1 },
          err := false }
    | Net.failure =>
        { fs := fs,
          log := { requests := [urlopenTimeoutSeconds], extractions := 0 },
          err := true }

/-- **C3.** Dataset acquisition is idempotent: whenever a first call
succeeds, a second call (under any network oracle) issues no request,
performs no extraction, succeeds, and leaves the filesystem state
exactly as the first call left it. -/
theorem C3_download_idempotent (net net' : Net) (fs : FS)
    (h : (download_and_extract_data net fs).err = false) :
    download_and_extract_data net' (download_and_extract_data net fs).fs =
      { fs := (download_and_extract_data net fs).fs,
        log := { requests := [], extractions := 0 }, err := false } := by
  revert h; revert net net' fs; decide

/-- Witness for C3 at a concrete input: starting from an empty
filesystem with a working network, the first run succeeds and the second
run is a no-op. -/
theorem C3_download_idempotent_witness :
    (download_and_extract_data Net.ok ⟨false, false⟩).err = false ∧
    download_and_extract_data Net.ok
        (download_and_extract_data Net.ok ⟨false, false⟩).fs =
      { fs := (download_and_extract_data Net.ok ⟨false, false⟩).fs,
        log := { requests := [], extractions := 0 }, err := false } :=
  ⟨by decide, C3_download_idempotent Net.ok Net.ok ⟨false, false⟩ (by decide)⟩

/-- **C9.** The fetch is a single HTTP request with timeout 15 seconds:
every invocation issues at most one request, every request issued uses
the 15-second timeout, and when the request fails on a fresh filesystem
the run aborts with the raised error after exactly that one request (no
retry). -/
theorem C9_single_request_timeout_fatal (net : Net) (fs : FS)
    (hp : fs.dataPath = false) (hz : fs.dataZip = false) :
    (download_and_extract_data net fs).log.requests.length ≤ 1 ∧
    (∀ t ∈ (download_and_extract_data net fs).log.requests, t = 15) ∧
    (net = Net.failure →
      (download_and_extract_data net fs).err = true ∧
      (download_and_extract_data net fs).log.requests = [15]) := by
  revert hp hz; revert net fs; decide

/-- Witness for C9 at a concrete input: a failing fetch on an empty
filesystem issues exactly one request with timeout 15 and aborts. -/
theorem C9_single_request_timeout_fatal_witness :
    (FS.mk false false).dataPath = false ∧ (FS.mk false false).dataZip = false ∧
    ((download_and_extract_data Net.failure ⟨false, false⟩).log.requests.length ≤ 1 ∧
     (∀ t ∈ (download_and_extract_data Net.failure ⟨false, false⟩).log.requests, t = 15) ∧
     (Net.failure = Net.failure →
       (download_and_extract_data Net.failure ⟨false, false⟩).err = true ∧
       (download_and_extract_data Net.failure ⟨false, false⟩).log.requests = [15])) :=
  ⟨by decide, by decide,
    C9_single_request_timeout_fatal Net.failure ⟨false, false⟩ (by decide) (by decide)⟩

/-- **C10.** If the zip archive exists but the extracted directory does
not, the call issues no network request, performs exactly one
extraction from the local archive, and reports success. -/
theorem C10_local_archive_skips_download (net : Net) :
    download_and_extract_data net ⟨true, false⟩ =
      { fs := ⟨true, true⟩,
        log := { requests := [], extractions := 1 }, err := false } := by
  revert net; decide

/-! ## Parameter freezing: the `Freezer` callback (notebook cell 24)

    freezer = Freezer(lambda x: not x.startswith('model.fc'))

The module's parameters are named records; before training begins the
callback marks every parameter matching the pattern as non-trainable,
and the optimizer updates only trainable parameters. -/

/-- A registered module parameter: its dotted name, its (abstracted
scalar) value, and its `requires_grad` flag.  In the pretrained model
every parameter starts with `requires_grad = True`. -/
structure Param where
  name : String
  value : ℚ
  requiresGrad : Bool

/-- The pattern passed to `Freezer` in the source:
`lambda x: not x.startswith('model.fc')`. -/
def freezerPattern (x : String) : Bool := !(x.startsWith "model.fc")

/-- Action of the freezer on one parameter: parameters matching the
pattern become non-trainable, the rest are untouched.  Modelled from the
spec: "before training begins, mark all parameters whose name does not
match the final-layer prefix as non-trainable". -/
def freezeParam (p : Param) : Param :=
  if freezerPattern p.name then { p with requiresGrad := false } else p

/-- The `Freezer` callback applied to the whole parameter list at
training start. -/
def applyFreezer (ps : List Param) : List Param := ps.map freezeParam

/-- One optimizer update of a single parameter.  Modelled from the spec:
"gradient updates apply only to the replacement layer" — a step
subtracts an update (`lr` times the gradient-derived delta, which also
covers momentum-adjusted deltas since `upd` is arbitrary) from every
trainable parameter and leaves non-trainable parameters untouched. -/
def sgdStepParam (lr : ℚ) (upd : String → ℚ) (p : Param) : Param :=
  if p.requiresGrad then { p with value := p.value - lr * upd p.name } else p

/-- One optimizer step over the whole parameter list. -/
def sgdStep (lr : ℚ) (upd : String → ℚ) (ps : List Param) : List Param :=
  ps.map (sgdStepParam lr upd)

/-- A whole training run: the sequence of per-step updates applied in
order to the freezer-processed parameter list. -/
def trainRun (lr : ℚ) (upds : List (String → ℚ)) (ps : List Param) : List Param :=
  upds.foldl (fun acc u => sgdStep lr u acc) ps

/-- A left fold of element-wise maps is the element-wise fold. -/
theorem foldl_map_comm {α β : Type} (f : β → α → α) (l : List β) (xs : List α) :
    l.foldl (fun acc b => acc.map (f b)) xs =
      xs.map (fun x => l.foldl (fun a b => f b a) x) := by
  induction l generalizing xs with
  | nil => simp
  | cons b l ih =>
      simp only [List.foldl_cons, ih, List.map_map]
      rfl

/-- A parameter frozen at the start of the run is fixed by every
optimizer step. -/
theorem foldl_sgdStepParam_frozen (lr : ℚ) (upds : List (String → ℚ))
    (p : Param) (h : p.requiresGrad = false) :
    upds.foldl (fun q u => sgdStepParam lr u q) p = p := by
  induction upds with
  | nil => rfl
  | cons u l ih => simpa [sgdStepParam, h] using ih

/-- Optimizer steps never change a parameter's name or its
`requires_grad` flag. -/
theorem foldl_sgdStepParam_preserves (lr : ℚ) (upds : List (String → ℚ))
    (p : Param) :
    (upds.foldl (fun q u => sgdStepParam lr u q) p).name = p.name ∧
    (upds.foldl (fun q u => sgdStepParam lr u q) p).requiresGrad = p.requiresGrad := by
  induction upds generalizing p with
  | nil => exact ⟨rfl, rfl⟩
  | cons u l ih =>
      have h := ih (sgdStepParam lr u p)
      constructor
      · rw [List.foldl_cons, h.1]
        by_cases hg : p.requiresGrad <;> simp [sgdStepParam, hg]
      · rw [List.foldl_cons, h.2]
        by_cases hg : p.requiresGrad <;> simp [sgdStepParam, hg]

/-- **C1.** With all pretrained parameters initially trainable, after
applying the freezer and running any training sequence: parameter names
are preserved positionally, a parameter is trainable exactly when its
name starts with `model.fc`, and every parameter whose name does not
start with `model.fc` keeps its pretrained value. -/
theorem C1_freezer_only_fc_trainable (ps : List Param) (lr : ℚ)
    (upds : List (String → ℚ)) (hps : ∀ p ∈ ps, p.requiresGrad = true) :
    ∀ i, i < ps.length →
      ∃ p q, ps[i]? = some p ∧ (trainRun lr upds (applyFreezer ps))[i]? = some q ∧
        q.name = p.name ∧
        q.requiresGrad = p.name.startsWith "model.fc" ∧
        (p.name.startsWith "model.fc" = false → q.value = p.value) := by
  intro i hi
  have hq : trainRun lr upds (applyFreezer ps) =
      ps.map (fun p => upds.foldl (fun a u => sgdStepParam lr u a) (freezeParam p)) := by
    unfold trainRun applyFreezer sgdStep
    rw [foldl_map_comm (fun u q => sgdStepParam lr u q) upds (ps.map freezeParam),
      List.map_map]
    rfl
  refine ⟨ps[i], upds.foldl (fun a u => sgdStepParam lr u a) (freezeParam ps[i]),
    by simp, ?_, ?_, ?_, ?_⟩
  · rw [hq, List.getElem?_map, List.getElem?_eq_getElem hi]
    rfl
  · rcases foldl_sgdStepParam_preserves lr upds (freezeParam ps[i]) with ⟨hn, _⟩
    rw [hn]
    by_cases hf : freezerPattern ps[i].name <;> simp [freezeParam, hf]
  · rcases foldl_sgdStepParam_preserves lr upds (freezeParam ps[i]) with ⟨_, hg⟩
    rw [hg]
    by_cases hf : (ps[i].name.startsWith "model.fc")
    · have : freezerPattern ps[i].name = false := by simp [freezerPattern, hf]
      simp [freezeParam, this, hf, hps ps[i] (ps.getElem_mem hi)]
    · have hf' : (ps[i].name.startsWith "model.fc") = false := by
        simpa using hf
      have : freezerPattern ps[i].name = true := by simp [freezerPattern, hf']
      simp [freezeParam, this, hf']
  · intro hf'
    have hfroz : (freezeParam ps[i]).requiresGrad = false := by
      simp [freezeParam, freezerPattern, hf']
    rw [foldl_sgdStepParam_frozen lr upds _ hfroz]
    by_cases hf : freezerPattern ps[i].name <;> simp [freezeParam, hf]

/-- Witness for C1 at a concrete input: a two-parameter model (the
replaced final layer and one backbone parameter), one update step of
size one. -/
theorem C1_freezer_only_fc_trainable_witness :
    (∀ p ∈ [Param.mk "model.fc.weight" 1 true, Param.mk "model.conv1.weight" 2 true],
      p.requiresGrad = true) ∧
    (∀ i, i < [Param.mk "model.fc.weight" 1 true, Param.mk "model.conv1.weight" 2 true].length →
      ∃ p q, [Param.mk "model.fc.weight" 1 true, Param.mk "model.conv1.weight" 2 true][i]? = some p ∧
        (trainRun 1 [fun _ => 1]
          (applyFreezer [Param.mk "model.fc.weight" 1 true,
            Param.mk "model.conv1.weight" 2 true]))[i]? = some q ∧
        q.name = p.name ∧
        q.requiresGrad = p.name.startsWith "model.fc" ∧
        (p.name.startsWith "model.fc" = false → q.value = p.value)) :=
  ⟨by intro p hp; simp at hp; rcases hp with h | h <;> simp [h],
   C1_freezer_only_fc_trainable
     [Param.mk "model.fc.weight" 1 true, Param.mk "model.conv1.weight" 2 true] 1
     [fun _ => 1]
     (by intro p hp; simp at hp; rcases hp with h | h <;> simp [h])⟩

/-! ## Checkpointing: the `Checkpoint` callback (notebook cell 22)

    checkpoint = Checkpoint(f_params='best_model.pt', monitor='valid_acc_best')

Modelled from the spec: skorch's validation-accuracy scorer keeps the
best score seen so far (initially minus infinity, here `none`) and flags
an epoch as best when its accuracy strictly exceeds it; the `Checkpoint`
callback saves the parameters to `best_model.pt` at the end of exactly
the flagged epochs, and has no delete operation. -/

/-- Is the current epoch's validation accuracy a strict improvement on
the best score seen so far?  `none` plays the role of the initial minus
infinity, so the first epoch always improves. -/
def isBestScore : Option ℚ → ℚ → Bool
  | none, _ => true
  | some b, cur => decide (b < cur)

/-- State carried across epoch boundaries: the best validation accuracy
seen so far and whether `best_model.pt` exists on disk. -/
structure CkptState where
  best : Option ℚ
  fileExists : Bool
deriving DecidableEq, Repr

/-- One epoch boundary: when the epoch's accuracy is a strict
improvement, record it as the new best and (re)write the checkpoint
file; otherwise do nothing. -/
def ckptStep (s : CkptState) (acc : ℚ) : CkptState :=
  if isBestScore s.best acc then { best := some acc, fileExists := true } else s

/-- Process the run's validation accuracies in order, returning the
final state together with, for each epoch, whether the checkpoint file
was (re)written at that epoch's boundary. -/
def ckptRun (s : CkptState) : List ℚ → CkptState × List Bool
  | [] => (s, [])
  | a :: l =>
      ((ckptRun (ckptStep s a) l).1,
        isBestScore s.best a :: (ckptRun (ckptStep s a) l).2)

/-- Improving on the post-step best is improving on the pre-step best
and on the step's own accuracy. -/
theorem isBestScore_ckptStep (s : CkptState) (a c : ℚ) :
    isBestScore (ckptStep s a).best c = (isBestScore s.best c && decide (a < c)) := by
  rcases s with ⟨best, f⟩
  cases best with
  | none => by_cases h : a < c <;> simp [ckptStep, isBestScore, h]
  | some b =>
      by_cases hba : b < a
      · by_cases hac : a < c
        · have hbc : b < c := lt_trans hba hac
          simp [ckptStep, isBestScore, hba, hac, hbc]
        · simp [ckptStep, isBestScore, hba, hac]
      · by_cases hbc : b < c
        · have hac : a < c := lt_of_le_of_lt (le_of_not_lt hba) hbc
          simp [ckptStep, isBestScore, hba, hbc, hac]
        · simp [ckptStep, isBestScore, hba, hbc]

/-- The write flag of epoch `i`: the file is (re)written there exactly
when the epoch's accuracy strictly exceeds all earlier accuracies of the
run and improves on the starting state's best. -/
theorem ckptRun_writes (l : List ℚ) (s : CkptState) (i : ℕ) (hi : i < l.length) :
    (ckptRun s l).2[i]? =
      some ((l.take i).all (fun x => decide (x < l[i])) && isBestScore s.best l[i]) := by
  induction l generalizing s i with
  | nil => simp at hi
  | cons a l ih =>
      cases i with
      | zero => simp [ckptRun]
      | succ i =>
          have hi' : i < l.length := by simpa using hi
          simp only [ckptRun, List.getElem?_cons_succ, List.getElem_cons_succ,
            List.take_succ_cons, List.all_cons]
          rw [ih (ckptStep s a) i hi', isBestScore_ckptStep]
          congr 1
          simp [Bool.and_comm, Bool.and_left_comm, Bool.and_assoc]

/-- `ckptRun` started after some epochs continues from the intermediate
state. -/
theorem ckptRun_append (s : CkptState) (l₁ l₂ : List ℚ) :
    (ckptRun s (l₁ ++ l₂)).1 = (ckptRun (ckptRun s l₁).1 l₂).1 := by
  induction l₁ generalizing s with
  | nil => rfl
  | cons a l ih => simpa only [List.cons_append, ckptRun] using ih (ckptStep s a)

/-- The checkpoint file is never deleted: every epoch boundary preserves
its existence. -/
theorem ckptRun_file_monotone (l : List ℚ) (s : CkptState)
    (h : s.fileExists = true) : ((ckptRun s l).1).fileExists = true := by
  induction l generalizing s with
  | nil => simpa [ckptRun] using h
  | cons a l ih =>
      simp only [ckptRun]
      apply ih
      by_cases hb : isBestScore s.best a <;> simp [ckptStep, hb, h]

/-- **C2.** Over a run with validation accuracies `accs`, starting from
no best score and no checkpoint file: `best_model.pt` is (re)written at
epoch `i`'s boundary iff accuracy `accs[i]` strictly exceeds every
earlier epoch's accuracy; and the file is never deleted — once it exists
after the first `k` epochs it still exists after any `m ≥ k` epochs. -/
theorem C2_checkpoint_strict_improvement (accs : List ℚ) (i : ℕ)
    (hi : i < accs.length) :
    ((ckptRun ⟨none, false⟩ accs).2[i]? = some true ↔
      ∀ j, (hj : j < i) → accs[j] < accs[i]) ∧
    (∀ k m, k ≤ m →
      ((ckptRun ⟨none, false⟩ (accs.take k)).1).fileExists = true →
      ((ckptRun ⟨none, false⟩ (accs.take m)).1).fileExists = true) := by
  constructor
  · rw [ckptRun_writes accs ⟨none, false⟩ i hi]
    simp only [isBestScore, Bool.and_true, Option.some_inj]
    rw [List.all_eq_true]
    constructor
    · intro hall j hj
      have hjl : j < accs.length := lt_trans hj hi
      have hmem : accs[j] ∈ accs.take i := by
        rw [List.mem_iff_getElem]
        exact ⟨j, by rw [List.length_take]; omega, List.getElem_take accs⟩
      simpa using hall accs[j] hmem
    · intro hall x hx
      rw [List.mem_iff_getElem] at hx
      obtain ⟨j, hj, rfl⟩ := hx
      have hji : j < i := by
        have := hj; rw [List.length_take] at this; omega
      rw [List.getElem_take accs]
      simpa using hall j hji
  · intro k m hkm hk
    have hsplit : accs.take m = accs.take k ++ (accs.drop k).take (m - k) := by
      have h1 : k + (m - k) = m := by omega
      conv_lhs => rw [← h1]
      rw [List.take_add]
    rw [hsplit, ckptRun_append]
    exact ckptRun_file_monotone _ _ hk

/-- Witness for C2 at a concrete input: accuracies `[1/2, 3/4, 3/4]`,
epoch `1` (the second epoch), which strictly improves and is written. -/
theorem C2_checkpoint_strict_improvement_witness :
    1 < ([1/2, 3/4, (3:ℚ)/4]).length ∧
    (((ckptRun ⟨none, false⟩ [1/2, 3/4, (3:ℚ)/4]).2[1]? = some true ↔
        ∀ j, (hj : j < 1) →
          List.get [1/2, 3/4, (3:ℚ)/4] ⟨j, by simp; omega⟩ <
            List.get [1/2, 3/4, (3:ℚ)/4] ⟨1, by simp⟩) ∧
      (∀ k m, k ≤ m →
        ((ckptRun ⟨none, false⟩ ([1/2, 3/4, (3:ℚ)/4].take k)).1).fileExists = true →
        ((ckptRun ⟨none, false⟩ ([1/2, 3/4, (3:ℚ)/4].take m)).1).fileExists = true)) :=
  ⟨by norm_num, C2_checkpoint_strict_improvement [1/2, 3/4, (3:ℚ)/4] 1 (by norm_num)⟩

/-! ## Learning-rate schedule: the `LRScheduler` callback (notebook cell 20)

    lrscheduler = LRScheduler(policy='StepLR', step_size=7, gamma=0.1)

with the initial rate `lr=0.001` from the `NeuralNetClassifier`
configuration (cell 27). -/

/-- Initial learning rate from the configuration: `lr=0.001`. -/
def initialLR : ℚ := 1/1000

/-- Decay factor from the callback configuration: `gamma=0.1`. -/
def lrGamma : ℚ := 1/10

/-- Decay interval from the callback configuration: `step_size=7`. -/
def lrStepSize : ℕ := 7

/-- Scheduler state: the number of completed epochs (`last_epoch`) and
the learning rate currently in the optimizer's parameter group. -/
structure SchedState where
  lastEpoch : ℕ
  lr : ℚ
deriving DecidableEq, Repr

/-- Scheduler state at construction, before any epoch has run. -/
def schedInit : SchedState := { lastEpoch := 0, lr := initialLR }

/-- Modelled from the spec: step decay "multiplies the rate by a fixed
factor at fixed epoch intervals" — one `StepLR.step()` advances
`last_epoch` and multiplies the rate by `gamma` exactly when the new
`last_epoch` is a multiple of `step_size`. -/
def schedStep (s : SchedState) : SchedState :=
  { lastEpoch := s.lastEpoch + 1,
    lr := if (s.lastEpoch + 1) % lrStepSize = 0 then s.lr * lrGamma else s.lr }

/-- The learning rate in effect at the start of epoch `e` (1-indexed):
the scheduler is stepped at each epoch end, so epoch `e` sees the state
after `e - 1` steps. -/
def lrAtEpoch (e : ℕ) : ℚ := (schedStep^[e - 1] schedInit).lr

/-- Closed form of the scheduler iteration. -/
theorem schedStep_iterate (k : ℕ) :
    (schedStep^[k] schedInit).lastEpoch = k ∧
    (schedStep^[k] schedInit).lr = initialLR * lrGamma ^ (k / lrStepSize) := by
  induction k with
  | zero => exact ⟨rfl, by simp [schedInit]⟩
  | succ k ih =>
      rcases ih with ⟨hle, hlr⟩
      rw [Function.iterate_succ_apply']
      constructor
      · simp [schedStep, hle]
      · simp only [schedStep, hle, hlr]
        by_cases h : (k + 1) % lrStepSize = 0
        · have hdvd : lrStepSize ∣ k + 1 := Nat.dvd_of_mod_eq_zero h
          have : (k + 1) / lrStepSize = k / lrStepSize + 1 := by
            rw [Nat.succ_div, if_pos hdvd]
          rw [if_pos h, this, pow_succ]
          ring
        · have hdvd : ¬ lrStepSize ∣ k + 1 := by
            simp only [lrStepSize] at h ⊢
            omega
          rw [if_neg h, Nat.succ_div, if_neg hdvd]
          simp

/-- **C4.** Step decay: the effective learning rate at the start of
epoch `e`'s optimizer steps is `0.001 * 0.1 ^ ((e - 1) / 7)` (with
truncating natural division, i.e. the floor). -/
theorem C4_step_decay (e : ℕ) :
    lrAtEpoch e = (1/1000 : ℚ) * (1/10 : ℚ) ^ ((e - 1) / 7) :=
  (schedStep_iterate (e - 1)).2

/-! ## Training-loop step counts (notebook cells 27 and 29)

The `NeuralNetClassifier` configuration fixes `batch_size=4` and
`max_epochs=25`, and `train_split=predefined_split(val_ds)` makes every
epoch run one full validation pass after its training pass. -/

/-- Batch size from the configuration: `batch_size=4`. -/
def batch_size : ℕ := 4

/-- Epoch count from the configuration: `max_epochs=25`. -/
def max_epochs : ℕ := 25

/-- Modelled from the spec: a loader over `n` samples with batch size
`b` and `drop_last=False` yields `⌈n / b⌉` mini-batches, i.e.
`(n + b - 1) / b` with truncating natural division. -/
def numBatches (n b : ℕ) : ℕ := (n + b - 1) / b

/-- Counters observed over a fit: optimizer training steps (one per
training mini-batch), validation passes, and total validation images
seen. -/
structure FitLog where
  trainSteps : ℕ
  validPasses : ℕ
  validImagesSeen : ℕ
deriving DecidableEq, Repr

/-- Modelled from the spec: one epoch iterates the training set in
mini-batches, taking one optimizer step per batch, then evaluates on the
full validation set of `m` images. -/
def runEpoch (n m : ℕ) (log : FitLog) : FitLog :=
  { trainSteps := log.trainSteps + numBatches n batch_size,
    validPasses := log.validPasses + 1,
    validImagesSeen := log.validImagesSeen + m }

/-- `net.fit` on `n` training and `m` validation images: `max_epochs`
epochs starting from zeroed counters. -/
def fitCounts (n m : ℕ) : FitLog := (runEpoch n m)^[max_epochs] ⟨0, 0, 0⟩

/-- Iterating an epoch adds its per-epoch counts `k` times. -/
theorem runEpoch_iterate (n m k : ℕ) (log : FitLog) :
    (runEpoch n m)^[k] log =
      ⟨log.trainSteps + k * numBatches n batch_size,
        log.validPasses + k, log.validImagesSeen + k * m⟩ := by
  induction k generalizing log with
  | zero => simp
  | succ k ih =>
      rw [Function.iterate_succ_apply, ih]
      simp [runEpoch]
      constructor
      · ring
      · constructor
        · omega
        · ring

/-- The natural-number expression `(n + 3) / 4` is the ceiling of
`n / 4`. -/
theorem ceil_div_four (n : ℕ) : ⌈(n : ℚ) / 4⌉ = (((n + 3) / 4 : ℕ) : ℤ) := by
  have h1 : 4 * ((n + 3) / 4) ≤ n + 3 := by omega
  have h3 : n ≤ 4 * ((n + 3) / 4) := by omega
  rw [Int.ceil_eq_iff]
  have hc : ((((n + 3) / 4 : ℕ) : ℤ) : ℚ) = (((n + 3) / 4 : ℕ) : ℚ) :=
    Int.cast_natCast _
  have h1' : (4:ℚ) * (((n + 3) / 4 : ℕ) : ℚ) ≤ (n:ℚ) + 3 := by exact_mod_cast h1
  have h3' : (n:ℚ) ≤ 4 * (((n + 3) / 4 : ℕ) : ℚ) := by exact_mod_cast h3
  exact ⟨by rw [hc]; linarith, by rw [hc]; linarith⟩

/-- **C5.** With `n` training images, `m` validation images, batch size
4 and 25 epochs, the loop performs exactly `⌈n/4⌉ * 25` optimizer
training steps and exactly 25 validation passes, each over all `m`
validation images. -/
theorem C5_step_counts (n m : ℕ) :
    ((fitCounts n m).trainSteps : ℤ) = ⌈(n : ℚ) / 4⌉ * 25 ∧
    (fitCounts n m).validPasses = 25 ∧
    (fitCounts n m).validImagesSeen = 25 * m := by
  rw [fitCounts, runEpoch_iterate]
  refine ⟨?_, by simp [max_epochs], by simp [max_epochs]⟩
  rw [ceil_div_four]
  push_cast
  simp [numBatches, batch_size, max_epochs]
  ring

/-! ## Transform pipelines (notebook cell 10)

    train_transforms = Compose([RandomResizedCrop(224), RandomHorizontalFlip(),
                                ToTensor(), Normalize([...], [...])])
    val_transforms   = Compose([Resize(256), CenterCrop(224),
                                ToTensor(), Normalize([...], [...])])

The transform list itself is embedded from the source; the semantics of
each individual torchvision operation is modelled from the spec ("an
ordered, deterministic sequence of image operations (resize, crop, flip,
tensor conversion, channel-wise normalization)"), with the two random
operations consuming the pseudo-random generator state and the
deterministic ones ignoring it. -/

/-- An RGB image: height, width, and 8-bit channel values at
(row, column). -/
structure Img where
  h : ℕ
  w : ℕ
  px : ℕ → ℕ → ℕ × ℕ × ℕ

/-- A channels × rows × cols tensor of exact scalar values. -/
structure Tensor where
  h : ℕ
  w : ℕ
  val : ℕ → ℕ → ℕ → ℚ

/-- Generator state as seeded by `torch.manual_seed` (cell 4), advanced
by a linear congruential step each time a random transform draws from
it. -/
structure Rng where
  state : ℕ
deriving DecidableEq, Repr

/-- The generator produced by seeding with `seed`. -/
def mkRng (seed : ℕ) : Rng := ⟨seed⟩

/-- Draw one pseudo-random number and advance the generator. -/
def rngNext (g : Rng) : ℕ × Rng :=
  let s := (g.state * 1103515245 + 12345) % 2147483648
  (s, ⟨s⟩)

/-- The transform constructors appearing in cell 10. -/
inductive Tf
  | randomResizedCrop (size : ℕ)
  | randomHorizontalFlip
  | resize (size : ℕ)
  | centerCrop (size : ℕ)
  | toTensor
  | normalize (mean std : List ℚ)
deriving DecidableEq

/-- The training pipeline, embedded from the source of cell 10. -/
def train_transforms : List Tf :=
  [Tf.randomResizedCrop 224, Tf.randomHorizontalFlip, Tf.toTensor,
   Tf.normalize [485/1000, 456/1000, 406/1000] [229/1000, 224/1000, 225/1000]]

/-- The validation pipeline, embedded from the source of cell 10. -/
def val_transforms : List Tf :=
  [Tf.resize 256, Tf.centerCrop 224, Tf.toTensor,
   Tf.normalize [485/1000, 456/1000, 406/1000] [229/1000, 224/1000, 225/1000]]

/-- Modelled from the spec: scale the shorter side to `size`, preserving
the aspect ratio (nearest-neighbour resampling). -/
def resizeImg (size : ℕ) (im : Img) : Img :=
  let nh := if im.h ≤ im.w then size else im.h * size / im.w
  let nw := if im.h ≤ im.w then im.w * size / im.h else size
  { h := nh, w := nw, px := fun r c => im.px (r * im.h / nh) (c * im.w / nw) }

/-- Modelled from the spec: crop the centred `size × size` window. -/
def centerCropImg (size : ℕ) (im : Img) : Img :=
  { h := size, w := size,
    px := fun r c => im.px ((im.h - size) / 2 + r) ((im.w - size) / 2 + c) }

/-- Modelled from the spec: convert 8-bit channel values to scalars in
`[0, 1]`, channels first. -/
def toTensorImg (im : Img) : Tensor :=
  { h := im.h, w := im.w,
    val := fun ch r c =>
      match ch with
      | 0 => ((im.px r c).1 : ℚ) / 255
      | 1 => ((im.px r c).2.1 : ℚ) / 255
      | _ => ((im.px r c).2.2 : ℚ) / 255 }

/-- Modelled from the spec: channel-wise normalization
`(x - mean[ch]) / std[ch]`. -/
def normalizeTensor (mean std : List ℚ) (t : Tensor) : Tensor :=
  { t with val := fun ch r c => (t.val ch r c - mean.getD ch 0) / std.getD ch 1 }

/-- Mirror the image horizontally. -/
def flipImg (im : Img) : Img :=
  { im with px := fun r c => im.px r (im.w - 1 - c) }

/-- Modelled from the spec: a random crop (position drawn from the
generator) resized to `size × size`. -/
def randomResizedCropImg (size : ℕ) (im : Img) (g : Rng) : Img × Rng :=
  let p1 := rngNext g
  let p2 := rngNext p1.2
  let top := p1.1 % (im.h - size + 1)
  let left := p2.1 % (im.w - size + 1)
  (resizeImg size
    { h := size, w := size, px := fun r c => im.px (top + r) (left + c) },
   p2.2)

/-- A value flowing through a pipeline: an image before `ToTensor`, a
tensor after. -/
inductive PVal
  | image (im : Img)
  | tensor (t : Tensor)

/-- Semantics of one transform: random transforms draw from the
generator, deterministic ones leave it untouched. -/
def applyTf (t : Tf) (v : PVal) (g : Rng) : PVal × Rng :=
  match t, v with
  | Tf.randomResizedCrop size, PVal.image im =>
      let p := randomResizedCropImg size im g
      (PVal.image p.1, p.2)
  | Tf.randomHorizontalFlip, PVal.image im =>
      let p := rngNext g
      (PVal.image (if p.1 % 2 = 0 then flipImg im else im), p.2)
  | Tf.resize size, PVal.image im => (PVal.image (resizeImg size im), g)
  | Tf.centerCrop size, PVal.image im => (PVal.image (centerCropImg size im), g)
  | Tf.toTensor, PVal.image im => (PVal.tensor (toTensorImg im), g)
  | Tf.normalize mean std, PVal.tensor t =>
      (PVal.tensor (normalizeTensor mean std t), g)
  | _, w => (w, g)

/-- `Compose`: apply the transforms in order, threading the generator. -/
def runPipeline (ts : List Tf) (v : PVal) (g : Rng) : PVal × Rng :=
  ts.foldl (fun p t => applyTf t p.1 p.2) (v, g)

/-- **C6.** The validation pipeline is deterministic: its output is
independent of the generator state (so in particular two runs on the
same image under the same fixed seed produce identical output tensors),
and it does not consume the generator. -/
theorem C6_val_pipeline_deterministic (im : Img) (g g' : Rng) :
    (runPipeline val_transforms (PVal.image im) g).1 =
      (runPipeline val_transforms (PVal.image im) g').1 ∧
    (runPipeline val_transforms (PVal.image im) g).2 = g :=
  ⟨rfl, rfl⟩

/-- The mean/std argument pairs of the `Normalize` steps of a
pipeline. -/
def normalizeConstants (ts : List Tf) : List (List ℚ × List ℚ) :=
  ts.filterMap fun t =>
    match t with
    | Tf.normalize mean std => some (mean, std)
    | _ => none

/-- **C7.** Both pipelines apply exactly one channel-wise normalization,
with the identical constants mean `[0.485, 0.456, 0.406]` and standard
deviation `[0.229, 0.224, 0.225]`. -/
theorem C7_shared_normalization_constants :
    normalizeConstants train_transforms =
      [([485/1000, 456/1000, 406/1000], [229/1000, 224/1000, 225/1000])] ∧
    normalizeConstants val_transforms =
      [([485/1000, 456/1000, 406/1000], [229/1000, 224/1000, 225/1000])] ∧
    normalizeConstants train_transforms = normalizeConstants val_transforms :=
  ⟨rfl, rfl, rfl⟩

/-! ## Device selection (notebook cell 27)

The configuration requests `device='cuda'`. -/

/-- The two devices the notebook can select between. -/
inductive Device
  | cpu
  | cuda
deriving DecidableEq, Repr, Fintype

/-- The device requested in the `NeuralNetClassifier` configuration:
`device='cuda'`. -/
def configuredDevice : Device := Device.cuda

/-- Outcome of moving the module to the requested device at training
start. -/
inductive TrainStart
  | deviceUnavailable
  | running (d : Device)
deriving DecidableEq, Repr

/-- Modelled from the spec: "requesting GPU execution on a machine
without one fails fast with a device-unavailable error rather than
silently falling back to CPU" — training starts on exactly the requested
device, and raises when a CUDA device is requested but absent. -/
def startTraining (requested : Device) (gpuAvailable : Bool) : TrainStart :=
  match requested with
  | Device.cpu => TrainStart.running Device.cpu
  | Device.cuda =>
      if gpuAvailable then TrainStart.running Device.cuda
      else TrainStart.deviceUnavailable

/-- **C8.** With the notebook's `device='cuda'` configuration and no GPU
available, the run fails with the device-unavailable error at training
start and does not run on any device (no silent CPU fallback). -/
theorem C8_no_silent_cpu_fallback :
    startTraining configuredDevice false = TrainStart.deviceUnavailable ∧
    ∀ d : Device, startTraining configuredDevice false ≠ TrainStart.running d := by
  decide

end TransferLearning
